import Mathlib

/-!
Shallow embedding of the OctaPokta/AssemblerProject two-pass assembler
(pre-assembler macro pass, first assembly pass, second assembly pass).

Every definition below is translated from the C sources under `src/`:
`pre_processing/pre_assembler.c`, `pre_processing/macros_table.c`,
`assembler/first_stage/first_stage.c`, `assembler/first_stage/first_stage_func.c`,
`assembler/second_stage/second_stage.c`, `assembler/second_stage/second_stage_func.c`.

Modelling conventions, applied uniformly:
* a C string (`char *`) is a `List Char`; lines are the strings produced by
  `fgets`, including their terminating newline character;
* `printf` diagnostics are dropped (they carry no state);
* `malloc` failure branches (the C "memory error" return codes 0 / -2 / 2)
  are dropped: allocation always succeeds in the model, so those codes are
  unreachable and the corresponding driver branches are dead;
* a C `while` loop that is not a plain prefix scan is translated with an
  explicit fuel argument initialised to `length + 1`; each loop iteration of
  the C consumes at least one character, so the fuel never runs out on the
  inputs any theorem below evaluates;
* `unsigned short` machine words (`mila.MILA`) are `Nat`, with the C
  int-to-unsigned-short conversion made explicit as `% 65536`;
* C `int` counters and addresses are `Int`.
-/

namespace Asm

/-- a C string: list of characters, newline terminator included for lines. -/
abbrev Str := List Char

/-- C `isspace` on the 7-bit ASCII inputs the assembler accepts. -/
def isspace (c : Char) : Bool :=
  c = ' ' || c = '\t' || c = '\n' || c = '\x0b' || c = '\x0c' || c = '\r'

/-- C `isdigit`. -/
def isdigit (c : Char) : Bool := '0' ≤ c && c ≤ '9'

/-- C `isalpha`. -/
def isalpha (c : Char) : Bool := ('a' ≤ c && c ≤ 'z') || ('A' ≤ c && c ≤ 'Z')

/-- value of a run of decimal digits, used by `atoi`. -/
def digitsVal (l : Str) : Int :=
  (l.takeWhile isdigit).foldl (fun acc c => acc * 10 + (c.toNat - 48)) 0

/-- C `atoi`: skip whitespace, optional sign, then digits. Overflow of the C
`int` is not modelled; every number the assembler feeds to `atoi` fits. -/
def atoi (l : Str) : Int :=
  let l1 := l.dropWhile isspace
  match l1 with
  | '-' :: tl => -(digitsVal tl)
  | '+' :: tl => digitsVal tl
  | _ => digitsVal l1

/-- `skipFirstWord` (first_stage_func.c): skip leading whitespace, one word,
and the whitespace after it. -/
def skipFirstWord (l : Str) : Str :=
  (((l.dropWhile isspace).dropWhile (fun c => !isspace c)).dropWhile isspace)

/-- `skip_word` (first_stage_func.c): skip one word from the current position
and the whitespace after it (no leading-whitespace skip). -/
def skip_word (l : Str) : Str :=
  ((l.dropWhile (fun c => !isspace c)).dropWhile isspace)

/-- the prefix of `l` that `skipFirstWord` consumes; used where the C keeps a
pointer to the start of a buffer whose tail is processed further. -/
def skipFirstWordPre (l : Str) : Str :=
  l.take (l.length - (skipFirstWord l).length)

/-- `get_first_word` (macros_table.c): first whitespace-delimited word.
The C returns NULL when the word exceeds its 81-byte static buffer; for
lines read by `fgets` with the buffer sizes used here every word is at most
80 characters (82 for the pre-assembler, whose over-long lines are rejected
by the length guard first), so that branch is unreachable and omitted. -/
def get_first_word (l : Str) : Str :=
  (l.dropWhile isspace).takeWhile (fun c => !isspace c)

/-- loop body of `findNumOfWords` (second_stage_func.c). The C spins forever
if it ever stood on a non-newline space, which cannot happen because
`skipFirstWord` consumes trailing whitespace; fuel exhaustion models that
dead path. -/
def findNumOfWordsGo : Nat → Str → Nat
  | 0, _ => 0
  | fuel + 1, l =>
    match l with
    | [] => 0
    | c :: _ =>
      if c = '\n' then 0
      else if isspace c then findNumOfWordsGo fuel l
      else 1 + findNumOfWordsGo fuel (skipFirstWord l)

/-- `findNumOfWords` (second_stage_func.c): number of words before the
newline. -/
def findNumOfWords (l : Str) : Nat :=
  findNumOfWordsGo (l.length + 1) (l.dropWhile isspace)

/-- `get_second_word` (macros_table.c): second word, or "" when the line has
fewer than two words. Buffer-overflow NULL branch omitted as in
`get_first_word`. -/
def get_second_word (l : Str) : Str :=
  if findNumOfWords l < 2 then []
  else (skipFirstWord l).takeWhile (fun c => !isspace c)

/-- `get_third_word` (second_stage_func.c). -/
def get_third_word (l : Str) : Str :=
  if findNumOfWords l < 3 then []
  else (skipFirstWord (skipFirstWord l)).takeWhile (fun c => !isspace c)

/-- `get_fourth_word` (second_stage_func.c). -/
def get_fourth_word (l : Str) : Str :=
  if findNumOfWords l < 4 then []
  else (skipFirstWord (skipFirstWord (skipFirstWord l))).takeWhile (fun c => !isspace c)

/-- `isOnlyWord` (macros_table.c): true when the line holds exactly one word. -/
def isOnlyWord (l : Str) : Bool :=
  skipFirstWord l = []

/-- `onlyTwoWords` (macros_table.c): true when the line holds exactly two
words. -/
def onlyTwoWords (l : Str) : Bool :=
  let l1 := skipFirstWord l
  if l1 = [] then false
  else (l1.dropWhile (fun c => !isspace c)).dropWhile isspace = []

/-! ## Macro table (pre_processing/macros_table.c) -/

/-- a node of the macro linked list: name and accumulated body text. -/
structure MacroDef where
  macro_name : Str
  macro_content : Str
deriving DecidableEq, Repr

/-- `isMacro`: does the table hold a macro of this name. -/
def isMacro (table : List MacroDef) (w : Str) : Bool :=
  table.any (fun m => m.macro_name = w)

/-- `getMacro`: body text of the named macro. The C returns NULL (falls off
the end) when the name is absent; every call is guarded by `isMacro`. -/
def getMacro (table : List MacroDef) (w : Str) : Str :=
  match table.find? (fun m => m.macro_name = w) with
  | some m => m.macro_content
  | none => []

/-- `validMacroName`: the name is no instruction mnemonic or directive. -/
def validMacroName (name : Str) : Bool :=
  !(["mov", "cmp", "add", "sub", "lea", "clr", "not", "inc", "dec", "jmp",
     "bne", "red", "prn", "jsr", "rts", "stop",
     ".data", ".string", ".entry", ".extern"].any (fun s => s.data = name))

/-- `addMacro`: append a node with empty content at the end of the list. -/
def addMacro (table : List MacroDef) (name : Str) : List MacroDef :=
  table ++ [⟨name, []⟩]

/-- `addMacroContent`: append `line` to the named macro's content. -/
def addMacroContent (table : List MacroDef) (line name : Str) : List MacroDef :=
  table.map (fun m => if m.macro_name = name then ⟨m.macro_name, m.macro_content ++ line⟩ else m)

/-! ## Pre-assembler (pre_processing/pre_assembler.c) -/

/-- state of the `pre_assembler` loop: macro table, MACRO_FLAG, MACRO_NAME,
text written to the `.am` file so far, and the recoverable-error count. -/
structure PreSt where
  table : List MacroDef
  flag : Bool
  mname : Str
  out : Str
  errs : Nat
deriving DecidableEq, Repr

/-- one iteration of the `pre_assembler` read loop on the line `l`.
The C detects an over-long physical line by `line[81] != '\0'`, which fires
exactly when `fgets` stored at least 82 characters; the discard of the rest
of the physical line via `fgetc` is not modelled (every theorem below stays
under the limit). -/
def preAsmLine (l : Str) (st : PreSt) : PreSt :=
  if 82 ≤ l.length then { st with errs := st.errs + 1 }
  else if l.head? = some ';' then st
  else
    let word := get_first_word l
    if isMacro st.table word then
      if !isOnlyWord l then { st with errs := st.errs + 1 }
      else { st with out := st.out ++ getMacro st.table word }
    else if word = "macr".data then
      if !onlyTwoWords l then { st with errs := st.errs + 1 }
      else
        let name := get_second_word l
        if 31 < name.length then { st with errs := st.errs + 1 }
        else if !validMacroName name then { st with errs := st.errs + 1 }
        else if isMacro st.table name then { st with errs := st.errs + 1 }
        else { st with flag := true, mname := name, table := addMacro st.table name }
    else if st.flag ∧ word ≠ "endmacr".data then
      { st with table := addMacroContent st.table l st.mname }
    else if word = "endmacr".data ∧ isOnlyWord l then
      { st with flag := false, mname := [] }
    else
      { st with out := st.out ++ l }

/-- the `pre_assembler` read loop over the list of input lines. -/
def preAsmLoop : List Str → PreSt → PreSt
  | [], st => st
  | l :: rest, st => preAsmLoop rest (preAsmLine l st)

/-- `pre_assembler`: run the loop from the empty table and return the C
return code (1 success, 0 some line was rejected) with the final state;
`st.out` is the text of the emitted `.am` file. -/
def pre_assembler (lines : List Str) : Nat × PreSt :=
  let st := preAsmLoop lines ⟨[], false, [], [], 0⟩
  (if 0 < st.errs then 0 else 1, st)

/-! ## Label table and memory images (assembler.h, first_stage_func.c) -/

/-- a node of the label linked list (`struct Lnode`). -/
structure LabelEntry where
  label_name : Str
  value : Int
  type : Str
deriving DecidableEq, Repr

/-- a cell of the data or instruction memory image: address and 16-bit word
(`mila.MILA` is `unsigned short`). -/
structure Cell where
  address : Int
  value : Nat
deriving DecidableEq, Repr

/-- the C conversion `(unsigned short) n` of an `int`. -/
def u16OfInt (n : Int) : Nat := (n % 65536).toNat

/-- `isAlreadyLabel`: is the name in the label table. -/
def isAlreadyLabel (labels : List LabelEntry) (w : Str) : Bool :=
  labels.any (fun t => t.label_name = w)

/-- `getLabelStatus`: type string of the named label, NULL when absent. -/
def getLabelStatus (labels : List LabelEntry) (w : Str) : Option Str :=
  (labels.find? (fun t => t.label_name = w)).map (fun t => t.type)

/-- `getLabelAddress`: value of the named label, -1 when absent. -/
def getLabelAddress (labels : List LabelEntry) (w : Str) : Int :=
  match labels.find? (fun t => t.label_name = w) with
  | some t => t.value
  | none => -1

/-- `addLabel`: append a node at the end of the label list. -/
def addLabel (labels : List LabelEntry) (name : Str) (value : Int) (ty : Str) :
    List LabelEntry :=
  labels ++ [⟨name, value, ty⟩]

/-- `loadLabelExtern`: append an `.external` label of value 0. -/
def loadLabelExtern (labels : List LabelEntry) (name : Str) : List LabelEntry :=
  labels ++ [⟨name, 0, ".external".data⟩]

/-- `updateLabels`: the rebase run after a successful pass 1. Adds `IC + 100`
to the value of every `.data`/`.string` label; all other labels keep their
value. -/
def updateLabels (ic : Int) : List LabelEntry → List LabelEntry
  | [] => []
  | l :: tl =>
    (if l.type = ".data".data ∨ l.type = ".string".data then
       { l with value := l.value + ic + 100 }
     else l) :: updateLabels ic tl

/-- the 28 names rejected as label names (mnemonics, directives, registers). -/
def invalidlabelName : List Str :=
  ["mov", "cmp", "add", "sub", "lea", "clr", "not", "inc", "dec", "jmp",
   "bne", "red", "prn", "jsr", "rts", "stop", ".data", ".string", ".entry",
   ".extern", "r0", "r1", "r2", "r3", "r4", "r5", "r6", "r7"].map String.data

/-- `isLabel` (first_stage_func.c): classify the start of a line.
Returns 1 for a valid label definition, 0 for none, 2 for an invalid one,
3 when the second word is `.extern`/`.entry`. When the candidate word is
empty the C inspects the character before the buffer position, which for a
`fgets` line is whitespace, never `':'`; that case lands in the no-label
branch below. -/
def isLabel (macros : List MacroDef) (line : Str) : Nat :=
  let second := get_second_word line
  if second = ".extern".data ∨ second = ".entry".data then 3
  else
    let rest := line.dropWhile isspace
    let word := rest.takeWhile (fun c => !isspace c)
    if word ≠ [] ∧ word.getLast? = some ':' then
      let len := word.length - 1
      if 31 < len then 2
      else
        let label := word.take len
        if !(label.head?.elim false isalpha) then 2
        else if invalidlabelName.any (fun s => s = label) then 2
        else if isMacro macros label then 2
        else 1
    else
      let after := (rest.dropWhile (fun c => !isspace c)).dropWhile isspace
      if after.head? = some ':' then 2 else 0

/-- loop body of `clearOfMacro` (first_stage_func.c): scan the words of the
line (each capped at 80 characters by the C buffer) for `macr` or a macro
name. -/
def clearOfMacroGo (macros : List MacroDef) : Nat → Str → Bool
  | 0, _ => true
  | fuel + 1, l =>
    let l1 := l.dropWhile isspace
    if l1 = [] then true
    else
      let w := (l1.takeWhile (fun c => !isspace c)).take 80
      if w = "macr".data then false
      else if isMacro macros w then false
      else clearOfMacroGo macros fuel (l1.drop w.length)

/-- `clearOfMacro`: true when no word of the line is `macr` or a macro name. -/
def clearOfMacro (macros : List MacroDef) (l : Str) : Bool :=
  clearOfMacroGo macros (l.length + 1) l

/-- loop body of `findDataOrStringWord` (first_stage_func.c). -/
def findDSGo : Nat → Str → Option Str
  | 0, _ => none
  | fuel + 1, l =>
    let l1 := l.dropWhile isspace
    if l1 = [] then none
    else
      let w := (l1.takeWhile (fun c => !isspace c)).take 80
      if w = ".data".data ∨ w = ".string".data then some w
      else findDSGo fuel (l1.drop w.length)

/-- `findDataOrStringWord`: the `.data`/`.string` word of the line, if any
word matches. The malloc-failure "0" return is dropped. -/
def findDataOrStringWord (l : Str) : Option Str :=
  findDSGo (l.length + 1) (l.dropWhile isspace)

/-- result of `findEntryOrExternWord` (first_stage_func.c): the C returns a
fresh copy of the directive, the error sentinel `"1"` for a repeated or
conflicting pair, or NULL. The malloc sentinel `"0"` is dropped. -/
inductive EEFind where
  | nothing
  | errPair
  | found (w : Str)
deriving DecidableEq, Repr

/-- `findEntryOrExternWord`: look for `.entry`/`.extern` among the first two
words. -/
def findEntryOrExternWord (l : Str) : EEFind :=
  let fw := get_first_word l
  let sw := get_second_word l
  if (fw = ".entry".data ∧ sw = ".extern".data) ∨
     (fw = ".extern".data ∧ sw = ".entry".data) then .errPair
  else if (fw = ".entry".data ∧ sw = ".entry".data) ∨
          (fw = ".extern".data ∧ sw = ".extern".data) then .errPair
  else if fw = ".entry".data ∨ sw = ".entry".data then .found ".entry".data
  else if fw = ".extern".data ∨ sw = ".extern".data then .found ".extern".data
  else .nothing

/-- `validInstructionName`: one of the 16 mnemonics. -/
def validInstructionName (w : Str) : Bool :=
  ["mov", "cmp", "add", "sub", "lea", "clr", "not", "inc", "dec", "jmp",
   "bne", "red", "prn", "jsr", "rts", "stop"].any (fun s => s.data = w)

/-- table rows of `validInstructionAddress`: legal target addressing modes of
the one-operand instructions (NONE is -1 in the C). -/
def oneOperandTable : List (Str × List Int) :=
  [("clr".data, [1, 2, 3, -1]), ("not".data, [1, 2, 3, -1]),
   ("inc".data, [1, 2, 3, -1]), ("dec".data, [1, 2, 3, -1]),
   ("jmp".data, [1, 2, -1, -1]), ("bne".data, [1, 2, -1, -1]),
   ("red".data, [1, 2, 3, -1]), ("prn".data, [0, 1, 2, 3]),
   ("jsr".data, [1, 2, -1, -1])]

/-- `validInstructionAddress`: is the addressing mode legal for the
one-operand instruction. -/
def validInstructionAddress (instructionType : Str) (addressingType : Int) : Bool :=
  oneOperandTable.any (fun row =>
    row.1 = instructionType ∧ row.2.any (fun t => addressingType = t))

/-- table rows of the two-operand instructions: legal source and target
addressing modes (NONE is -1). -/
def twoOperandTable : List (Str × List Int × List Int) :=
  [("mov".data, [0, 1, 2, 3], [-1, 1, 2, 3]),
   ("cmp".data, [0, 1, 2, 3], [0, 1, 2, 3]),
   ("add".data, [0, 1, 2, 3], [-1, 1, 2, 3]),
   ("sub".data, [0, 1, 2, 3], [-1, 1, 2, 3]),
   ("lea".data, [-1, 1, -1, -1], [-1, 1, 2, 3])]

/-- `valid2operandsAddress`: both operand modes legal for the two-operand
instruction (the C counts matches over all rows and requires exactly 2). -/
def valid2operandsAddress (instructionType : Str) (fa sa : Int) : Bool :=
  let count := twoOperandTable.foldl (fun acc row =>
    if row.1 = instructionType then
      acc + (row.2.1.countP (fun t => fa = t)) + (row.2.2.countP (fun t => sa = t))
    else acc) 0
  count = 2

/-- `validOperandAddress`: one operand mode legal as source or target;
addressing type -2 (possible future label) is accepted outright. -/
def validOperandAddress (instructionType : Str) (at' : Int) (sot : Str) : Bool :=
  if at' = -2 then true
  else
    let count := twoOperandTable.foldl (fun acc row =>
      if row.1 = instructionType then
        if sot = "source".data then acc + (row.2.1.countP (fun t => at' = t))
        else if sot = "target".data then acc + (row.2.2.countP (fun t => at' = t))
        else acc
      else acc) 0
    count = 1

/-! ## Comma handling (first_stage_func.c) -/

/-- loop of `replaceCommas`: validate the comma arrangement after the first
word while overwriting each separating comma with a space. Returns the
validity flag and the (possibly partially) rewritten text; on a validation
failure the C stops rewriting, so the untouched suffix is returned as is.
`lastComma` is the `comma_found` flag of the previous iteration, consulted
by the trailing-comma check when the loop exits. -/
def replCGo : Nat → Str → Bool → Bool × Str
  | 0, l, _ => (false, l)
  | fuel + 1, l, lastComma =>
    if l = [] then (!lastComma, l)
    else
      let w := l.takeWhile (fun c => !isspace c && c ≠ ',')
      let r1 := l.drop w.length
      match r1 with
      | ',' :: tl =>
        let sp := tl.takeWhile isspace
        let r2 := tl.drop sp.length
        if r2.head? = some ',' then (false, w ++ ' ' :: (sp ++ r2))
        else
          let (ok, out) := replCGo fuel r2 true
          (ok, w ++ ' ' :: (sp ++ out))
      | _ =>
        let sp := r1.takeWhile isspace
        let r2 := r1.drop sp.length
        if r2.head? ≠ some ',' ∧ r2 ≠ [] then (false, w ++ sp ++ r2)
        else
          let (ok, out) := replCGo fuel r2 false
          (ok, w ++ sp ++ out)

/-- `replaceCommas`: skip the first word, reject a leading comma, then run
the rewrite loop. Returns (return code, mutated buffer). -/
def replaceCommas (l : Str) : Bool × Str :=
  let pre := skipFirstWordPre l
  let rest := skipFirstWord l
  if rest.head? = some ',' then (false, l)
  else
    let (ok, out) := replCGo (rest.length + 1) rest false
    (ok, pre ++ out)

/-- `addSpacesAfterCommas`: copy the line inserting a space after each comma,
truncating when the 81-byte static buffer would overflow (`j` is the C output
index). -/
def addSpacesGo : Str → Nat → Str
  | [], _ => []
  | c :: tl, j =>
    if 80 ≤ j then []
    else if c = ',' then
      if 80 ≤ j + 1 then [c]
      else c :: ' ' :: addSpacesGo tl (j + 2)
    else c :: addSpacesGo tl (j + 1)

/-- `addSpacesAfterCommas` entry point. -/
def addSpacesAfterCommas (l : Str) : Str := addSpacesGo l 0

/-- `replaceCommasWithSpaces`: plain comma-to-space copy, truncated to the
80 characters its static buffer holds. -/
def replaceCommasWithSpaces (l : Str) : Str :=
  (l.take 80).map (fun c => if c = ',' then ' ' else c)

/-! ## Data image (first_stage_func.c) -/

/-- `addData`: append a data cell holding `(unsigned short) number`. -/
def addData (data : List Cell) (number : Int) (dcAddress : Int) : List Cell :=
  data ++ [⟨dcAddress, u16OfInt number⟩]

/-- `addString`: append a data cell holding a character's code. -/
def addString (data : List Cell) (c : Char) (dcAddress : Int) : List Cell :=
  data ++ [⟨dcAddress, c.toNat % 65536⟩]

/-- number-list loop of the `.data` branch of `encodeData`. Returns the new
DC on success or -1 on a malformed list; data cells appended before an error
stay in the image, as in the C. `found` is the C `numberFound` flag. -/
def encodeDataGo : Nat → Str → Int → Bool → List Cell → Int × List Cell
  | 0, _, _, _, data => (-1, data)
  | fuel + 1, l, dc, found, data =>
    if l = [] then (if found then dc else -1, data)
    else
      let l1 := l.dropWhile isspace
      if !(l1.head? = some '+' ∨ l1.head? = some '-' ∨ l1.head?.elim false isdigit) then
        (-1, data)
      else
        let l2 := if l1.head? = some '+' then l1.drop 1 else l1
        let sign : Str := if l2.head? = some '-' then ['-'] else []
        let l3 := if l2.head? = some '-' then l2.drop 1 else l2
        let digs := l3.takeWhile isdigit
        let l4 := l3.drop digs.length
        let buf := sign ++ digs
        if 0 < buf.length then
          let number := atoi buf
          if 32767 < number ∨ number < -32767 then (-1, data)
          else
            let data' := addData data number dc
            let l5 := l4.dropWhile isspace
            match l5 with
            | ',' :: tl =>
              let tl2 := tl.dropWhile isspace
              if tl2.head? = some ',' ∨
                 !(tl2.head?.elim false isdigit ∨ tl2.head? = some '-' ∨ tl2.head? = some '+') then
                (-1, data')
              else encodeDataGo fuel tl2 (dc + 1) true data'
            | _ => encodeDataGo fuel l5 (dc + 1) true data'
        else
          let l5 := l4.dropWhile isspace
          match l5 with
          | ',' :: tl =>
            let tl2 := tl.dropWhile isspace
            if tl2.head? = some ',' ∨
               !(tl2.head?.elim false isdigit ∨ tl2.head? = some '-' ∨ tl2.head? = some '+') then
              (-1, data)
            else encodeDataGo fuel tl2 dc found data
          | _ => encodeDataGo fuel l5 dc found data

/-- `encodeData`: encode a `.data` or `.string` directive into the data
image. Returns the updated DC on success or -1 on a recoverable error,
together with the data image (the C -2 memory error is dropped). -/
def encodeData (data : List Cell) (line : Str) (dcAddress : Int) (dataType : Str)
    (labelFlag : Bool) : Int × List Cell :=
  let start :=
    if labelFlag then
      ((skipFirstWord line).dropWhile (fun c => !isspace c)).dropWhile isspace
    else skipFirstWord line
  if dataType = ".data".data then
    if start.head? = some ',' then (-1, data)
    else encodeDataGo (start.length + 1) start dcAddress false data
  else if dataType = ".string".data then
    let quoteCount := line.countP (fun c => c = '"')
    if quoteCount ≠ 2 then (-1, data)
    else if start.head? ≠ some '"' then (-1, data)
    else
      let l2 := start.drop 1
      if l2.head? = some '"' then (-1, data)
      else
        let content := l2.takeWhile (fun c => c ≠ '"')
        let data1 := content.foldl (fun (p : List Cell × Int) c =>
          (addString p.1 c p.2, p.2 + 1)) (data, dcAddress)
        let data2 := addString data1.1 (Char.ofNat 0) data1.2
        let dc2 := data1.2 + 1
        let l3 := (l2.drop content.length).drop 1
        if l3.dropWhile isspace ≠ [] then (-1, data2)
        else (dc2, data2)
  else (dcAddress, data)

/-! ## Instruction encoding (first_stage_func.c) -/

/-- the register names `r0` .. `r7`. -/
def registers : List Str :=
  ["r0", "r1", "r2", "r3", "r4", "r5", "r6", "r7"].map String.data

/-- `getAddressingType`: addressing mode of one operand. 0 immediate,
1 known label, 2 register indirect, 3 register direct, -1 syntax error,
-2 unknown word (possible future label). -/
def getAddressingType (labels : List LabelEntry) (operand : Str) : Int :=
  if operand.head? = some '#' then
    if (operand.drop 1).head? = some '-' ∨ (operand.drop 1).head?.elim false isdigit then
      let count := ((operand.drop 1).takeWhile (fun c => !isspace c && c ≠ ',')).length
      if count = 0 then -1 else 0
    else -1
  else if isAlreadyLabel labels operand then 1
  else if operand.head? = some '*' then
    if registers.any (fun r => r = operand.drop 1) then 2 else -1
  else if registers.any (fun r => r = operand) then 3
  else -2

/-- `insertDataToNode` + `assignNodeToList`: append a cell at the end of the
instruction image. -/
def assignNodeToList (inst : List Cell) (value : Nat) (ic : Int) : List Cell :=
  inst ++ [⟨ic, value⟩]

/-- `encodeMila`: encode one operand word at address `IC`. Returns the C code
(1 success, 2 encoding error) and the instruction image. The C `num << 3`
style shifts of possibly negative `int` values are written as
multiplications, and the store into the `unsigned short` cell as
`u16OfInt`. When the addressing type is outside 0..3 the C falls off the end
of the function; callers never do that, and the model returns 1 unchanged. -/
def encodeMila (labels : List LabelEntry) (inst : List Cell)
    (adressingType : Int) (operand : Str) (ic : Int) (operandType : Str) :
    Nat × List Cell :=
  if adressingType = 0 then
    let num := atoi (operand.drop 1)
    if 4095 < num then (2, inst)
    else
      let w := Nat.lor (Nat.lor 0 (1 <<< 2)) (u16OfInt (num * 8))
      (1, assignNodeToList inst w ic)
  else if adressingType = 1 then
    let labelStatus := getLabelStatus labels operand
    let labeladdress := getLabelAddress labels operand
    if labeladdress = -1 then (1, inst)
    else if labelStatus = some ".external".data then
      (1, assignNodeToList inst (Nat.lor 0 1) ic)
    else
      let w := Nat.lor (Nat.lor 0 (1 <<< 1)) (u16OfInt (labeladdress * 8))
      (1, assignNodeToList inst w ic)
  else if adressingType = 2 then
    let registerNum := atoi (operand.drop 2)
    if 7 < registerNum then (2, inst)
    else
      let base := Nat.lor 0 (1 <<< 2)
      let w :=
        if operandType = "target".data then Nat.lor base (u16OfInt (registerNum * 8))
        else if operandType = "source".data then Nat.lor base (u16OfInt (registerNum * 64))
        else base
      (1, assignNodeToList inst w ic)
  else if adressingType = 3 then
    let registerNum := atoi (operand.drop 1)
    if 7 < registerNum then (2, inst)
    else
      let base := Nat.lor 0 (1 <<< 2)
      let w :=
        if operandType = "target".data then Nat.lor base (u16OfInt (registerNum * 8))
        else if operandType = "source".data then Nat.lor base (u16OfInt (registerNum * 64))
        else base
      (1, assignNodeToList inst w ic)
  else (1, inst)

/-- `checkERRloadLabelADRRtype`: handle the -1 and -2 addressing results of
the one-operand case. Returns the C code (2 error, 1 future label, 0 fine) and
the instruction image. -/
def checkERRloadLabelADRRtype (adressingType : Int) (milaVal : Nat) (ic : Int)
    (inst : List Cell) : Nat × List Cell :=
  if adressingType = -1 then (2, assignNodeToList inst milaVal ic)
  else if adressingType = -2 then
    (1, assignNodeToList inst (Nat.lor milaVal (1 <<< (1 + 3))) ic)
  else (0, inst)

/-- `checkValidOperands`: validity of the two operand modes, honouring the
future-label flags. 2 invalid, 1 both future, 3 one future and the other
valid, 0 both valid. -/
def checkValidOperands (firstFut secondFut : Bool) (instructionType : Str)
    (fa sa : Int) : Nat :=
  if firstFut ∧ secondFut then 1
  else if secondFut then
    if !validOperandAddress instructionType sa "target".data then 2 else 3
  else if firstFut then
    if !validOperandAddress instructionType fa "source".data then 2 else 3
  else if !valid2operandsAddress instructionType fa sa then 2
  else 0

/-- `encodeRegisterMilaOnly`: both operands are register forms; encode them
into one combined word. Returns the C code (1 success, 0 error) and the
image. -/
def encodeRegisterMilaOnly (inst : List Cell) (line : Str) (ic : Int) :
    Nat × List Cell :=
  let w1 := (get_first_word line).dropWhile (fun c => !isspace c && !isdigit c)
  let firstRegisterNum := atoi (get_first_word w1)
  if 7 < firstRegisterNum then (0, inst)
  else
    let w2 := (get_second_word line).dropWhile (fun c => !isspace c && !isdigit c)
    let secondRegisterNum := atoi (get_first_word w2)
    if 7 < secondRegisterNum then (0, inst)
    else
      let w := Nat.lor (Nat.lor (Nat.lor 0 (1 <<< 2)) (u16OfInt (firstRegisterNum * 64)))
        (u16OfInt (secondRegisterNum * 8))
      (1, assignNodeToList inst w ic)

/-- `addInstruction`: encode one instruction line into the instruction
image. `line` is the comma-rewritten buffer, `instructionLength` the operand
count. Returns the C code (1 success, 2 recoverable error; the malloc 0 is
dropped) and the image. The C copies `instructionType` into a stack buffer
whose terminator lands one byte past the array; its effective content is the
mnemonic, which is used directly here. -/
def addInstruction (labels : List LabelEntry) (inst : List Cell) (line : Str)
    (instructionType : Str) (instructionLength : Nat) (ic : Int) (opcode : Nat) :
    Nat × List Cell :=
  if instructionLength = 0 then
    let w := Nat.lor (Nat.lor 0 (1 <<< 2)) (opcode <<< 11)
    (1, assignNodeToList inst w ic)
  else if instructionLength = 1 then
    let base := Nat.lor (Nat.lor 0 (1 <<< 2)) (opcode <<< 11)
    let operand := get_second_word line
    let fa := getAddressingType labels operand
    let (addressErrType, inst1) := checkERRloadLabelADRRtype fa base ic inst
    if addressErrType ≠ 0 then (addressErrType, inst1)
    else if !validInstructionAddress instructionType fa then
      (2, assignNodeToList inst1 base ic)
    else
      let w := Nat.lor base (1 <<< (fa.toNat + 3))
      let inst2 := assignNodeToList inst1 w ic
      let (e, inst3) := encodeMila labels inst2 fa operand (ic + 1) "target".data
      if e = 2 then (2, inst3) else (1, inst3)
  else if instructionLength = 2 then
    let base := Nat.lor (Nat.lor 0 (1 <<< 2)) (opcode <<< 11)
    let line1 := skipFirstWord line
    let firstOperand := get_first_word line1
    let fa := getAddressingType labels firstOperand
    if fa = -1 then (2, assignNodeToList inst base ic)
    else
      let firstFut := fa = -2
      let secondOperand := get_second_word line1
      let sa := getAddressingType labels secondOperand
      if sa = -1 then (2, assignNodeToList inst base ic)
      else
        let secondFut := sa = -2
        let cvo := checkValidOperands firstFut secondFut instructionType fa sa
        if cvo = 2 then (2, assignNodeToList inst base ic)
        else if cvo = 1 then
          let w := Nat.lor (Nat.lor base (1 <<< (1 + 7))) (1 <<< (1 + 3))
          (1, assignNodeToList inst w ic)
        else
          let w0 := if !firstFut then Nat.lor base (1 <<< (fa.toNat + 7)) else base
          let w1 := if !secondFut then Nat.lor w0 (1 <<< (sa.toNat + 3)) else w0
          let w2 := if firstFut then Nat.lor w1 (1 <<< (1 + 7)) else w1
          let w3 := if secondFut then Nat.lor w2 (1 <<< (1 + 3)) else w2
          let inst1 := assignNodeToList inst w3 ic
          if firstFut ∧ !secondFut then
            let (e, inst2) := encodeMila labels inst1 sa secondOperand (ic + 2) "target".data
            if e = 2 then (2, inst2) else (1, inst2)
          else if (fa = 2 ∨ fa = 3) ∧ (sa = 2 ∨ sa = 3) then
            let (r, inst2) := encodeRegisterMilaOnly inst1 line1 (ic + 1)
            if r = 0 then (2, inst2) else (1, inst2)
          else
            let (e1, inst2) := encodeMila labels inst1 fa firstOperand (ic + 1) "source".data
            if e1 = 2 then (2, inst2)
            else if secondFut then (1, inst2)
            else
              let (e2, inst3) := encodeMila labels inst2 sa secondOperand (ic + 2) "target".data
              if e2 = 2 then (2, inst3) else (1, inst3)
  else (1, inst)

/-- word/operand counting loop of `encodeInstruction`. -/
def countLGo : Nat → Str → Nat
  | 0, _ => 0
  | fuel + 1, l =>
    match l with
    | [] => 0
    | c :: _ => if c = '\n' then 0 else 1 + countLGo fuel (skipFirstWord l)

/-- the operand-count table of `encodeInstruction` (`ins_length`): the index
of a mnemonic is its opcode. -/
def instructionTypeTable : List (Str × Nat) :=
  [("mov".data, 2), ("cmp".data, 2), ("add".data, 2), ("sub".data, 2),
   ("lea".data, 2), ("clr".data, 1), ("not".data, 1), ("inc".data, 1),
   ("dec".data, 1), ("jmp".data, 1), ("bne".data, 1), ("red".data, 1),
   ("prn".data, 1), ("jsr".data, 1), ("rts".data, 0), ("stop".data, 0)]

/-- `encodeInstruction`: rewrite the commas of the line, count its words,
check the operand count, and encode via `addInstruction`. Returns the word
count L of the line on success, -1 on a recoverable error (the C -2 memory
error is dropped), with the instruction image. When the mnemonic is not in
the table the C leaves `opcode` uninitialised and skips the operand-count
check; the drivers only call with valid mnemonics, and the model uses 0
there. -/
def encodeInstruction (labels : List LabelEntry) (inst : List Cell) (line : Str)
    (labelFlag : Bool) (ic : Int) : Int × List Cell :=
  let lineA := addSpacesAfterCommas line
  let lineB := if labelFlag then skipFirstWord lineA else lineA
  let (ok, lineC) := replaceCommas lineB
  if !ok then (-1, inst)
  else
    let instructionWord := get_first_word lineC
    let temp := skipFirstWord lineC
    let instructionLength := countLGo (temp.length + 1) temp
    let L : Int := 1 + instructionLength
    match instructionTypeTable.findIdx? (fun p => p.1 = instructionWord) with
    | some i =>
      if instructionLength ≠ (instructionTypeTable.get! i).2 then (-1, inst)
      else
        let (e, inst') := addInstruction labels inst lineC instructionWord
          instructionLength ic i
        if e = 2 then (-1, inst') else (L, inst')
    | none =>
      let (e, inst') := addInstruction labels inst lineC instructionWord
        instructionLength ic 0
      if e = 2 then (-1, inst') else (L, inst')

/-- `isAddressType2Or3`: are both operands of the line register forms. -/
def isAddressType2Or3 (macros : List MacroDef) (labels : List LabelEntry)
    (line : Str) : Bool :=
  let lineA := addSpacesAfterCommas line
  let firstWord := get_first_word lineA
  let lineB := if isLabel macros firstWord = 1 then skipFirstWord lineA else lineA
  let lineC := lineB.dropWhile isspace
  let lineD := skip_word lineC
  let lineE := replaceCommasWithSpaces lineD
  let firstOperand := get_first_word lineE
  let secondOperand := get_second_word lineE
  let fa := getAddressingType labels firstOperand
  let sa := getAddressingType labels secondOperand
  (fa = 2 ∨ fa = 3) ∧ (sa = 2 ∨ sa = 3)

/-- `addExtern`: register the label after a `.extern` directive as an
external symbol. Returns the C code (1 success, 0 recoverable error; memory
code 2 dropped) and the label table. The C's `if (line == '\0')` compares
the pointer itself with NULL and is dead code, omitted here. -/
def addExtern (macros : List MacroDef) (labels : List LabelEntry) (line : Str)
    (labelErr : Nat) : Nat × List LabelEntry :=
  let line1 := if labelErr = 3 then skipFirstWord line else line
  let line2 := skipFirstWord line1
  let l3 := line2.dropWhile isspace
  let w := l3.takeWhile (fun c => !isspace c)
  if 31 < w.length then (0, labels)
  else if skipFirstWord l3 ≠ [] then (0, labels)
  else if invalidlabelName.any (fun s => s = w) then (0, labels)
  else if isMacro macros w then (0, labels)
  else if isAlreadyLabel labels w then (0, labels)
  else (1, loadLabelExtern labels w)

/-! ## First pass driver (first_stage.c) -/

/-- the state the first-stage loop threads between lines: label table,
instruction image, data image, IC, DC, recoverable-error count, line number
and the LABEL_FLAG (declared outside the C loop, reset by the cleanup
macros). -/
structure St where
  labels : List LabelEntry
  inst : List Cell
  data : List Cell
  ic : Int
  dc : Int
  err : Nat
  lineNum : Int
  labelFlag : Bool
deriving DecidableEq, Repr

/-- tail of `processLine1` shared by the labelled and label-free instruction
paths: encode the line and advance IC, undoing one word when both operands
are register forms. -/
def encodeAndAdvance (macros : List MacroDef) (line : Str) (st : St)
    (labelFlag : Bool) : St :=
  let (L, inst') := encodeInstruction st.labels st.inst line labelFlag st.ic
  if L = -1 then { st with inst := inst', err := st.err + 1, labelFlag := false }
  else
    let ic1 := st.ic + L
    let ic2 := if isAddressType2Or3 macros st.labels line then ic1 - 1 else ic1
    { st with inst := inst', ic := ic2, labelFlag := false }

/-- one iteration of the `first_stage` read loop (without the size-limit
check, which the C performs before reading the next line). -/
def processLine1 (macros : List MacroDef) (line : Str) (st : St) : St :=
  let st := { st with lineNum := st.lineNum + 1 }
  let labelErr := isLabel macros line
  let dataOrString := findDataOrStringWord line
  let entryOrExtern := findEntryOrExternWord line
  let firstWord := get_first_word line
  if firstWord = [] then st
  else if line.head? = some ';' then st
  else if !clearOfMacro macros line then { st with err := st.err + 1, labelFlag := false }
  else
    let flag := if labelErr = 1 then true else st.labelFlag
    if labelErr = 2 then { st with err := st.err + 1, labelFlag := false }
    else
      match dataOrString with
      | some ds =>
        let labelAdd : Option St :=
          if flag then
            let label := (get_first_word line).dropLast
            if isAlreadyLabel st.labels label then none
            else some { st with labels := addLabel st.labels label st.dc ds }
          else some st
        match labelAdd with
        | none => { st with err := st.err + 1, labelFlag := false }
        | some stA =>
          if ds = ".data".data ∨ ds = ".string".data then
            let (newDC, data') := encodeData stA.data line stA.dc ds flag
            if newDC = -1 then
              { stA with data := data', err := stA.err + 1, labelFlag := false }
            else { stA with data := data', dc := newDC, labelFlag := false }
          else { stA with labelFlag := false }
      | none =>
        match entryOrExtern with
        | .errPair => { st with err := st.err + 1, labelFlag := false }
        | .found w =>
          if w = ".extern".data then
            let (e, labels') := addExtern macros st.labels line labelErr
            if e = 0 then
              { st with labels := labels', err := st.err + 1, labelFlag := false }
            else { st with labels := labels', labelFlag := false }
          else { st with labelFlag := false }
        | .nothing =>
          if flag then
            let secondWord := get_second_word line
            let label := (get_first_word line).dropLast
            if isAlreadyLabel st.labels label then
              { st with err := st.err + 1, labelFlag := false }
            else
              let stD := { st with labels := addLabel st.labels label (st.ic + 100) ".code".data }
              if !validInstructionName secondWord then
                { stD with err := stD.err + 1, labelFlag := false }
              else encodeAndAdvance macros line stD true
          else
            if !validInstructionName firstWord then
              { st with err := st.err + 1, labelFlag := false }
            else encodeAndAdvance macros line st false

/-- the `first_stage` read loop: before each line the C checks the memory
size limit `IC + DC > MEMORY_SIZE` (4096) and breaks with an error when it
is exceeded. -/
def firstStageLoop (macros : List MacroDef) : List Str → St → St
  | [], st => st
  | line :: rest, st =>
    if 4096 < st.ic + st.dc then { st with err := st.err + 1 }
    else firstStageLoop macros rest (processLine1 macros line st)

/-- the initial first-stage state. -/
def initSt : St := ⟨[], [], [], 0, 0, 0, 0, false⟩

/-- `first_stage`: run the loop over the `.am` lines; on a clean run rebase
the labels with `updateLabels(IC)` and return 1, otherwise return 0 (the C
memory-error exits are dropped). -/
def first_stage (macros : List MacroDef) (lines : List Str) : Nat × St :=
  let st := firstStageLoop macros lines initSt
  if 0 < st.err then (0, st)
  else (1, { st with labels := updateLabels st.ic st.labels })

/-! ## Second pass (second_stage_func.c, second_stage.c) -/

/-- `changeEntryStatus`: overwrite the type of the first label of this name
with `.entry`. The C falls off the end when the name is absent; `addEntry`
guards every call with `isAlreadyLabel`. -/
def changeEntryStatus : List LabelEntry → Str → List LabelEntry
  | [], _ => []
  | p :: tl, w =>
    if w = p.label_name then { p with type := ".entry".data } :: tl
    else p :: changeEntryStatus tl w

/-- `addEntry`: promote the label named by a `.entry` directive. Returns the
C code (1 success, 0 unknown label; the memory code 2 is dropped) and the
label table. -/
def addEntry (labels : List LabelEntry) (labelWord : Str) : Nat × List LabelEntry :=
  if !isAlreadyLabel labels labelWord then (0, labels)
  else (1, changeEntryStatus labels labelWord)

/-- `encodeLabelMila`: write a label operand word at address `IC` during
pass 2: ARE=E and zero address for an external, else ARE=R and the label's
(rebased) address in bits 3-14. The C reads the label's status without a
presence guard; callers only pass names of addressing type 1, which exist. -/
def encodeLabelMila (labels : List LabelEntry) (inst : List Cell) (operand : Str)
    (ic : Int) : List Cell :=
  let labelStatus := getLabelStatus labels operand
  let labeladdress := getLabelAddress labels operand
  if labelStatus = some ".external".data then
    assignNodeToList inst (Nat.lor 0 1) ic
  else
    assignNodeToList inst (Nat.lor (Nat.lor 0 (1 <<< 1)) (u16OfInt (labeladdress * 8))) ic

/-- `LabelWasAlreadyEncoded`: does the instruction image hold a cell at this
address. -/
def LabelWasAlreadyEncoded (inst : List Cell) (ic : Int) : Bool :=
  inst.any (fun p => p.address = ic)

/-- `encodeMissingOperand`: revisit one instruction line in pass 2 and fill
the operand words that pass 1 left out. Returns the word count L of the line
(or -1 for an invalid operand), the line as left in the driver's buffer by
the in-place `replaceCommas`, and the instruction image. In the C the result
of `encodeLabelMila` is tested against 0 before `LabelWasAlreadyEncoded` is
consulted, the `&&` short-circuits on the constant 1, so the label word is
written unconditionally. An operand count above 2 falls through the C switch
with an indeterminate return value; pass 1 has already rejected such lines,
and the model returns L. -/
def encodeMissingOperand (labels : List LabelEntry) (inst : List Cell)
    (line : Str) (labelFlag : Bool) (ic0 : Int) : Int × Str × List Cell :=
  let pre := if labelFlag then skipFirstWordPre line else []
  let rest := if labelFlag then skipFirstWord line else line
  let (_, rest') := replaceCommas rest
  let mline := pre ++ rest'
  let l1 := skipFirstWord rest'
  let ic := ic0 + 1
  let L : Int := 1 + findNumOfWords l1
  if l1 = [] ∨ l1.head? = some '\n' then (L, mline, inst)
  else
    let len := findNumOfWords l1
    if len = 1 then
      let operand := get_first_word l1
      let at1 := getAddressingType labels operand
      if at1 = 1 then
        if LabelWasAlreadyEncoded inst ic then (L, mline, inst)
        else (L, mline, encodeLabelMila labels inst operand ic)
      else if at1 = -2 then (-1, mline, inst)
      else (L, mline, inst)
    else if len = 2 then
      let firstOperand := get_first_word l1
      let secondOperand := get_second_word l1
      let fa := getAddressingType labels firstOperand
      let sa := getAddressingType labels secondOperand
      if (fa = 2 ∨ fa = 3) ∧ (sa = 2 ∨ sa = 3) then (L, mline, inst)
      else
        let inst1 := if fa = 1 then encodeLabelMila labels inst firstOperand ic else inst
        let inst2 := if sa = 1 then encodeLabelMila labels inst1 secondOperand (ic + 1) else inst1
        if fa = -2 then (-1, mline, inst2)
        else if sa = -2 then (-1, mline, inst2)
        else (L, mline, inst2)
    else (L, mline, inst)

/-- `check4OperandEntry`: excess operands after a `.entry` directive. The C
compares the static-buffer result with the literal `""` by pointer; within
this translation unit the merged `""` literal makes that an emptiness test. -/
def check4OperandEntry (line : Str) (labelFlag : Bool) : Bool :=
  if labelFlag then get_fourth_word line ≠ []
  else get_third_word line ≠ []

/-- one iteration of the `second_stage` read loop. LABEL_FLAG is local to an
iteration here (unlike pass 1). Returns the new state; `st.ic` is the pass-2
IC. -/
def processLine2 (macros : List MacroDef) (line : Str) (st : St) : St :=
  let word := get_first_word line
  if word = [] then st
  else
    let st := { st with lineNum := st.lineNum + 1 }
    if line.head? = some ';' then st
    else
      let word' := word.dropLast
      let flag := isAlreadyLabel st.labels word' ∨ isLabel macros line = 3
      let wordCheck := if flag then get_second_word line else get_first_word line
      if wordCheck = ".data".data ∨ wordCheck = ".string".data ∨
         wordCheck = ".extern".data then st
      else if wordCheck = ".entry".data then
        let labelWord := if flag then get_third_word line else get_second_word line
        let (e, labels') := addEntry st.labels labelWord
        if e = 0 then { st with err := st.err + 1 }
        else
          let st1 := { st with labels := labels' }
          if check4OperandEntry line flag then { st1 with err := st1.err + 1 }
          else st1
      else
        let (L, mline, inst') := encodeMissingOperand st.labels st.inst line flag st.ic
        if L = -1 then { st with inst := inst', err := st.err + 1 }
        else
          let ic1 := st.ic + L
          let ic2 := if isAddressType2Or3 macros st.labels mline then ic1 - 1 else ic1
          { st with inst := inst', ic := ic2 }

/-- the `second_stage` read loop. -/
def secondStageLoop (macros : List MacroDef) : List Str → St → St
  | [], st => st
  | line :: rest, st => secondStageLoop macros rest (processLine2 macros line st)

/-- `second_stage`: run the loop (with a fresh pass-2 IC, line counter and
error counter) over the same `.am` lines; on a clean run the C calls
`createOutput`, which emits the object file and the optional `.ent`/`.ext`
files, and returns 1; with errors it returns 0 and emits nothing. -/
def second_stage (macros : List MacroDef) (lines : List Str) (st0 : St) : Nat × St :=
  let st := secondStageLoop macros lines
    { st0 with ic := 0, err := 0, lineNum := 0 }
  (if 0 < st.err then 0 else 1, st)

/-! ## Output writers (second_stage_func.c) -/

/-- `write2Ent`: one line `name value` (printf `%s %d\n`) for every label of
type `.entry`, in label-table order. -/
def write2Ent : List LabelEntry → Str
  | [] => []
  | p :: tl =>
    (if p.type = ".entry".data then
       p.label_name ++ ' ' :: (toString p.value).data ++ ['\n']
     else []) ++ write2Ent tl

/-- `entryLabelsExists`: at least one `.entry` label. -/
def entryLabelsExists (labels : List LabelEntry) : Bool :=
  labels.any (fun p => p.type = ".entry".data)

/-- the body word `write2Object` prints for a memory cell: the `%05o` datum
is `MILA & 077777`, the 15-bit mask. -/
def write2ObjectWord (mila : Nat) : Nat := Nat.land mila 32767

/-- `isRegister` (second_stage_func.c): 1 when the word is one of the
sixteen register forms `r0`..`r7`, `*r0`..`*r7`, else 0. -/
def isRegister (w : Str) : Nat :=
  if (["r0", "r1", "r2", "r3", "r4", "r5", "r6", "r7",
       "*r0", "*r1", "*r2", "*r3", "*r4", "*r5", "*r6", "*r7"].map String.data).any
      (fun r => r = w) then 1 else 0

/-- `checkRegisters` (second_stage_func.c): the C condition is
`(isRegister(s) == 1 && isRegister(t)) == 1 || (isRegister(t) == 1 && isRegister(f) == 1)`;
the first disjunct is the int value of the inner `&&` compared with 1. -/
def checkRegisters (secondWord thirdWord fourthWord : Str) : Nat :=
  let inner : Nat :=
    if isRegister secondWord = 1 ∧ isRegister thirdWord ≠ 0 then 1 else 0
  if inner = 1 ∨ (isRegister thirdWord = 1 ∧ isRegister fourthWord = 1) then 1
  else 0

/-! ## Concrete programs used by the theorems -/

/-- scenario (c) of the specification: a forward reference to a data label. -/
def progForward : List Str := ["mov LEN, r1\n".data, "LEN: .data 100\n".data]

/-- scenario (a): a register pair with no labels. -/
def progRegPair : List Str := ["mov r3, r5\n".data]

/-- scenario (e): entry promotion. -/
def progEntry : List Str :=
  [".entry MAIN\n".data, "MAIN: mov #1, r0\n".data, "stop\n".data]

/-- two labels whose `.entry` declarations appear in the opposite order of
their definitions. -/
def progTwoEntries : List Str :=
  ["A: mov #1, r0\n".data, "B: stop\n".data, ".entry B\n".data, ".entry A\n".data]

/-- a line with the boundary immediate `#2048`. -/
def progImm2048 : List Str := ["mov #2048, r0\n".data]

/-- an instruction line with two forward references: pass 1 advances IC by 3
for it while adding a single information word. -/
def movFwdLine : Str := "mov X1, X2\n".data

/-- the line defining the label X1. -/
def x1Line : Str := "X1: stop\n".data

/-- the line defining the label X2. -/
def x2Line : Str := "X2: stop\n".data

/-- a program whose final lines push IC past the 4096-word memory limit:
1365 three-word `mov X1, X2` lines (IC 4095) followed by the definitions of
`X1` and `X2`, one word each (IC 4097). -/
def progOverflow : List Str :=
  List.replicate 1365 movFwdLine ++ [x1Line, x2Line]

/-- a comment line: no `macr`, no `endmacr`, no macro name anywhere. -/
def commentLine : Str := "; a comment\n".data

/-- the label table `progOverflow` produces: `X1` at IC 4095 and `X2` at
IC 4096, stored (and kept by the rebase) with the +100 load base. -/
def c4Labels : List LabelEntry :=
  [⟨"X1".data, 4195, ".code".data⟩, ⟨"X2".data, 4196, ".code".data⟩]

/-! ## Theorems -/

/-- C1 (counterexample). For the two-line program `mov LEN, r1` /
`LEN: .data 100` the claim states that IC equals 2 after pass 1; the code
leaves IC = 3 (information word, placeholder slot for LEN, register operand
word), so the claim as stated is false. -/
theorem c1_ic_is_three_not_two :
    (first_stage [] progForward).2.ic = 3 ∧ (3 : Int) ≠ 2 := by
  exact ⟨rfl, by decide⟩

/-- C1 (amended). For `mov LEN, r1` / `LEN: .data 100`: pass 1 emits the
information word (value 324 = A + source-mode-1 bit 8 + target-mode-3 bit 6)
at IC 0 and the register word at IC 2, leaving the slot at IC 1 as the
placeholder for the forward reference LEN; after pass 1 IC = 3 (not 2) and
DC = 1; LEN is rebased to 103 = 0 + IC + 100; pass 2 fills the placeholder
word with 826 = ARE-R (bit 1) plus LEN's rebased address 103 in bits 3-14. -/
theorem c1_forward_reference_amended :
    (first_stage [] progForward).1 = 1 ∧
    (first_stage [] progForward).2.ic = 3 ∧
    (first_stage [] progForward).2.dc = 1 ∧
    (first_stage [] progForward).2.inst = [⟨0, 324⟩, ⟨2, 12⟩] ∧
    (first_stage [] progForward).2.labels = [⟨"LEN".data, 103, ".data".data⟩] ∧
    (second_stage [] progForward (first_stage [] progForward).2).1 = 1 ∧
    (second_stage [] progForward (first_stage [] progForward).2).2.inst =
      [⟨0, 324⟩, ⟨2, 12⟩, ⟨1, 826⟩] ∧
    (826 : Nat) = 2 + 103 * 8 := by
  refine ⟨rfl, rfl, rfl, rfl, rfl, rfl, rfl, by norm_num⟩

/-- C2 (code bug). `encodeMila` only checks `num > 4095` for an immediate
operand, so `#2048` is accepted: the whole line `mov #2048, r0` assembles
without error, and the operand word stores 2048 in bits 3-14 with ARE=A
(16388 = 2048 * 8 + 4). The specification mandates the range -2048..2047 and
names `#2048` as a rejected boundary case. The conjuncts also show the
actual cut-off: `#4096` is rejected, `#4095` is not. -/
theorem c2_immediate_2048_accepted :
    (first_stage [] progImm2048).1 = 1 ∧
    (first_stage [] progImm2048).2.err = 0 ∧
    (first_stage [] progImm2048).2.inst = [⟨0, 196⟩, ⟨1, 16388⟩, ⟨2, 4⟩] ∧
    (16388 : Nat) = 2048 * 8 + 4 ∧
    (encodeMila [] [] 0 "#2048".data 1 "target".data).1 = 1 ∧
    (encodeMila [] [] 0 "#4095".data 1 "target".data).1 = 1 ∧
    (encodeMila [] [] 0 "#4096".data 1 "target".data).1 = 2 := by
  refine ⟨rfl, rfl, rfl, by norm_num, rfl, rfl, rfl⟩

/-- C3 (counterexample). The claim states that the rebase adds 100 to every
CodeLabel's value; `updateLabels` leaves a `.code` label of value 100
unchanged (it only touches `.data` and `.string` labels). -/
theorem c3_code_label_not_rebased :
    updateLabels 3 [⟨"F".data, 100, ".code".data⟩] = [⟨"F".data, 100, ".code".data⟩] ∧
    (100 : Int) ≠ 100 + 100 := by
  exact ⟨rfl, by decide⟩

/-- C3 (amended). The rebase run after a successful pass 1 adds
`ic_final + 100` to the value of every symbol whose kind is `.data` or
`.string`; every other symbol — `.code` and `.external` alike — keeps its
value (code labels already received the +100 load base when they were
inserted with value IC + 100). -/
theorem c3_rebase_amended (ic : Int) (labels : List LabelEntry) :
    updateLabels ic labels = labels.map (fun l =>
      if l.type = ".data".data ∨ l.type = ".string".data then
        { l with value := l.value + ic + 100 }
      else l) := by
  induction labels with
  | nil => rfl
  | cons hd tl ih => simp [updateLabels, ih]

/-- C5 (counterexample). The claim states that `.entry` naming an external
label is reported as an error rather than promoting it; `addEntry` on a
table holding only the external label X returns success (1) and rewrites the
label's kind to `.entry`. -/
theorem c5_external_promoted :
    addEntry [⟨"X".data, 0, ".external".data⟩] "X".data =
      (1, [⟨"X".data, 0, ".entry".data⟩]) := by
  rfl

/-- helper for the C5 theorem: `changeEntryStatus` turns the type of some
label of the requested name into `.entry`. -/
theorem changeEntryStatus_mem (labels : List LabelEntry) (w : Str)
    (h : isAlreadyLabel labels w = true) :
    ∃ l ∈ changeEntryStatus labels w, l.label_name = w ∧ l.type = ".entry".data := by
  induction labels with
  | nil => simp [isAlreadyLabel] at h
  | cons hd tl ih =>
    by_cases hw : w = hd.label_name
    · have hcons : changeEntryStatus (hd :: tl) w = { hd with type := ".entry".data } :: tl := by
        simp [changeEntryStatus, hw]
      exact ⟨{ hd with type := ".entry".data }, by rw [hcons]; exact List.mem_cons_self _ _,
        hw.symm, rfl⟩
    · have h' : isAlreadyLabel tl w = true := by
        simp only [isAlreadyLabel, List.any_eq_true, decide_eq_true_eq, List.mem_cons] at h ⊢
        obtain ⟨x, hx | hx, hname⟩ := h
        · exact absurd (hx ▸ hname).symm hw
        · exact ⟨x, hx, hname⟩
      obtain ⟨l, hl, hn, ht⟩ := ih h'
      have hcons : changeEntryStatus (hd :: tl) w = hd :: changeEntryStatus tl w := by
        simp [changeEntryStatus, hw]
      exact ⟨l, by rw [hcons]; exact List.mem_cons_of_mem _ hl, hn, ht⟩

/-- C5 (amended). In pass 2, `.entry` naming a symbol absent from the table
is an error (code 0, table unchanged); `.entry` naming any existing symbol —
its prior kind may equally be code, data, string or external — succeeds
(code 1) and rewrites that symbol's kind to `.entry`. No check excludes
externals. -/
theorem c5_entry_promotion_amended (labels : List LabelEntry) (w : Str)
    (h : isAlreadyLabel labels w = true) :
    (addEntry labels w).1 = 1 ∧
    ∃ l ∈ (addEntry labels w).2, l.label_name = w ∧ l.type = ".entry".data := by
  unfold addEntry
  rw [h]
  exact ⟨rfl, changeEntryStatus_mem labels w h⟩

/-- witness for `c5_entry_promotion_amended` at the external label X. -/
theorem c5_entry_promotion_amended_witness :
    isAlreadyLabel [⟨"X".data, 0, ".external".data⟩] "X".data = true ∧
    ((addEntry [⟨"X".data, 0, ".external".data⟩] "X".data).1 = 1 ∧
     ∃ l ∈ (addEntry [⟨"X".data, 0, ".external".data⟩] "X".data).2,
       l.label_name = "X".data ∧ l.type = ".entry".data) :=
  ⟨by decide, c5_entry_promotion_amended [⟨"X".data, 0, ".external".data⟩] "X".data (by decide)⟩

/-- C6 (confirmed). Encoding the label-free line `mov r3, r5` produces
exactly two instruction words: the information word 1092 with opcode 0,
source-mode bit 10, target-mode bit 6 and ARE=A (bit 2), then the combined
register word 236 with source register 3 in bits 8-6, target register 5 in
bits 5-3 and ARE=A; IC advances from 0 to exactly 2. -/
theorem c6_register_pair_encoding :
    (first_stage [] progRegPair).1 = 1 ∧
    (first_stage [] progRegPair).2.inst = [⟨0, 1092⟩, ⟨1, 236⟩] ∧
    (first_stage [] progRegPair).2.ic = 2 ∧
    (1092 : Nat) = 0 * 2 ^ 11 + 2 ^ 10 + 2 ^ 6 + 2 ^ 2 ∧
    (236 : Nat) = 3 * 2 ^ 6 + 5 * 2 ^ 3 + 2 ^ 2 := by
  refine ⟨rfl, rfl, rfl, by norm_num, by norm_num⟩

/-- C7 (counterexample). For the entry-promotion program the `.ent` writer
prints `MAIN 100` — `fprintf` with `%d`, no zero padding — not `MAIN 0100`
as the claim states. -/
theorem c7_ent_not_zero_padded :
    write2Ent (second_stage [] progEntry (first_stage [] progEntry).2).2.labels =
      "MAIN 100\n".data ∧
    "MAIN 100\n".data ≠ "MAIN 0100\n".data := by
  exact ⟨rfl, by decide⟩

/-- C7 (amended). The entries file holds one line per entry symbol, each
line `name address` with the address printed as a plain decimal (`%d`,
unpadded), in label-table (definition) order — not in `.entry` declaration
order. For scenario (e) the file is `MAIN 100`; for a program defining A
then B but declaring `.entry B` before `.entry A`, the file lists A before
B. -/
theorem c7_entries_file_amended :
    (second_stage [] progEntry (first_stage [] progEntry).2).1 = 1 ∧
    entryLabelsExists
      (second_stage [] progEntry (first_stage [] progEntry).2).2.labels = true ∧
    write2Ent (second_stage [] progEntry (first_stage [] progEntry).2).2.labels =
      "MAIN 100\n".data ∧
    (second_stage [] progTwoEntries (first_stage [] progTwoEntries).2).1 = 1 ∧
    write2Ent
      (second_stage [] progTwoEntries (first_stage [] progTwoEntries).2).2.labels =
      "A 100\nB 103\n".data := by
  refine ⟨rfl, rfl, rfl, rfl, rfl⟩

/-- C10 (confirmed). Every word the object writer prints is masked with
0o77777 and hence at most 0o77777 = 32767; a data cell for `.data -3` holds
the full 16-bit value 0xFFFD = 65533 internally and is emitted as
0x7FFD = 32765. -/
theorem c10_object_words_masked :
    (∀ mila : Nat, write2ObjectWord mila ≤ 32767) ∧
    addData [] (-3) 0 = [⟨0, 65533⟩] ∧
    write2ObjectWord 65533 = 32765 := by
  refine ⟨fun mila => Nat.and_le_right, rfl, rfl⟩

/-- C9 (counterexample). A single comment line contains no `macr`, no
`endmacr` and no identifier at all (the macro table is empty), yet the macro
pass drops it: the output is empty, not byte-identical to the input. -/
theorem c9_comment_line_dropped :
    get_first_word commentLine ≠ "macr".data ∧
    get_first_word commentLine ≠ "endmacr".data ∧
    (pre_assembler [commentLine]).1 = 1 ∧
    (pre_assembler [commentLine]).2.table = [] ∧
    (pre_assembler [commentLine]).2.out ≠ commentLine := by
  refine ⟨by decide, by decide, rfl, rfl, by decide⟩

/-- helper for C9: when the table is empty, the flag is off, and no line is
over-long, a comment, or starts with `macr`/`endmacr`, the macro pass copies
every line verbatim. -/
theorem preAsmLoop_copies (lines : List Str) :
    ∀ st : PreSt, st.table = [] → st.flag = false →
    (∀ l ∈ lines, l.length ≤ 81 ∧ l.head? ≠ some ';' ∧
      get_first_word l ≠ "macr".data ∧ get_first_word l ≠ "endmacr".data) →
    preAsmLoop lines st = { st with out := st.out ++ lines.flatten } := by
  induction lines with
  | nil => intro st _ _ _; simp [preAsmLoop]
  | cons l rest ih =>
    intro st htable hflag h
    obtain ⟨h1, h2, h3, h4⟩ := h l (List.mem_cons_self _ _)
    have hrest := fun x hx => h x (List.mem_cons_of_mem _ hx)
    have hlen : ¬ (82 ≤ l.length) := by omega
    have hline : preAsmLine l st = { st with out := st.out ++ l } := by
      simp only [preAsmLine, htable, hflag]
      rw [if_neg hlen, if_neg h2]
      simp [isMacro, h3, h4]
    rw [preAsmLoop, hline, ih { st with out := st.out ++ l } htable hflag hrest]
    simp [List.append_assoc]

/-- C9 (amended). The macro pass is the identity on already-expanded text:
for every input whose lines respect the 80-character limit and which
contains no comment lines (dropped by the pass), no `macr`/`endmacr`
definitions and no identifier equal to a registered macro name (the table
starts empty and stays empty), the pass succeeds and writes the input
byte-for-byte. -/
theorem c9_macro_pass_identity_amended (lines : List Str)
    (h : ∀ l ∈ lines, l.length ≤ 81 ∧ l.head? ≠ some ';' ∧
      get_first_word l ≠ "macr".data ∧ get_first_word l ≠ "endmacr".data) :
    (pre_assembler lines).1 = 1 ∧ (pre_assembler lines).2.out = lines.flatten := by
  unfold pre_assembler
  rw [preAsmLoop_copies lines ⟨[], false, [], [], 0⟩ rfl rfl h]
  exact ⟨rfl, by simp⟩

/-- witness for `c9_macro_pass_identity_amended` on a two-line expanded
text. -/
theorem c9_macro_pass_identity_amended_witness :
    (∀ l ∈ ["mov r1, r2\n".data, "stop\n".data], l.length ≤ 81 ∧
      l.head? ≠ some ';' ∧ get_first_word l ≠ "macr".data ∧
      get_first_word l ≠ "endmacr".data) ∧
    (pre_assembler ["mov r1, r2\n".data, "stop\n".data]).1 = 1 ∧
    (pre_assembler ["mov r1, r2\n".data, "stop\n".data]).2.out =
      ["mov r1, r2\n".data, "stop\n".data].flatten :=
  ⟨by decide, c9_macro_pass_identity_amended ["mov r1, r2\n".data, "stop\n".data] (by decide)⟩

/-- helper for C8: provided no register token is shadowed by a label of the
same name, an operand has addressing mode 2 or 3 exactly when `isRegister`
accepts it. -/
theorem mode23_iff_isRegister (ls : List LabelEntry)
    (hls : ∀ w, isRegister w = 1 → isAlreadyLabel ls w = false) (w : Str) :
    getAddressingType ls w ∈ ([2, 3] : List Int) ↔ isRegister w = 1 := by
  constructor
  · intro h
    unfold getAddressingType at h
    split_ifs at h with h1 h2 h3 h4 h5 h6
    · simp only [List.mem_cons, List.not_mem_nil, or_false] at h
      rcases h with h | h <;> split at h <;> omega
    · simp at h
    · simp at h
    · -- register-indirect branch: w = '*' :: r with r a register name
      cases w with
      | nil => simp at h4
      | cons c t =>
        have hc : c = '*' := by simpa using h4
        have ht : t ∈ registers := by simpa [List.any_eq_true] using h5
        subst hc
        revert ht
        simp only [registers, List.map_cons, List.map_nil, List.mem_cons,
          List.not_mem_nil, or_false]
        intro hr
        rcases hr with h' | h' | h' | h' | h' | h' | h' | h' <;> subst h' <;> decide
    · simp at h
    · -- register-direct branch: w itself is a register name
      have ht : w ∈ registers := by simpa [List.any_eq_true] using h6
      revert ht
      simp only [registers, List.map_cons, List.map_nil, List.mem_cons,
        List.not_mem_nil, or_false]
      intro hr
      rcases hr with h' | h' | h' | h' | h' | h' | h' | h' <;> subst h' <;> decide
    · simp at h
  · intro h
    have hw : ∃ r ∈ (["r0", "r1", "r2", "r3", "r4", "r5", "r6", "r7",
        "*r0", "*r1", "*r2", "*r3", "*r4", "*r5", "*r6", "*r7"].map String.data),
        r = w := by
      by_contra hall
      simp only [isRegister, List.any_eq_true, decide_eq_true_eq] at h
      rw [if_neg hall] at h
      exact absurd h (by decide)
    have hla := hls w h
    obtain ⟨r, hr, hrt⟩ := hw
    subst hrt
    revert hr
    simp only [List.map_cons, List.map_nil, List.mem_cons, List.not_mem_nil, or_false]
    intro hr
    rcases hr with h' | h' | h' | h' | h' | h' | h' | h' | h' | h' | h' | h' | h' | h' | h' | h' <;>
      subst h' <;> simp [getAddressingType, hla, registers]

/-- C8 (confirmed). `checkRegisters` receives the second, third and fourth
words of an instruction line — an optional label word, the mnemonic, then at
most two operands — and returns 1 exactly when the line has two operands
whose addressing modes are both 2 or 3 (register indirect or register
direct). The mis-parenthesised `(isRegister(s) == 1 && isRegister(t)) == 1`
has the same truth value as the intended conjunction because `isRegister`
only returns 0 or 1. Hypotheses: no label in the table and no mnemonic
(nor the label word of the line) is spelled like a register form, and the
line has at most two operands — all guaranteed by the pass-1 validation. -/
theorem c8_checkRegisters_iff (ls : List LabelEntry) (lab : Option Str) (mn : Str)
    (ops : List Str)
    (hls : ∀ w, isRegister w = 1 → isAlreadyLabel ls w = false)
    (hmn : isRegister mn = 0)
    (hops : ops.length ≤ 2) :
    checkRegisters ((lab.toList ++ mn :: ops).getD 1 [])
        ((lab.toList ++ mn :: ops).getD 2 [])
        ((lab.toList ++ mn :: ops).getD 3 []) = 1 ↔
      ∃ a b, ops = [a, b] ∧ getAddressingType ls a ∈ ([2, 3] : List Int) ∧
        getAddressingType ls b ∈ ([2, 3] : List Int) := by
  have hreg0 : ∀ w : Str, isRegister w = 0 ∨ isRegister w = 1 := by
    intro w; unfold isRegister; split <;> simp
  have hnil : isRegister [] = 0 := rfl
  cases lab with
  | none =>
    rcases ops with _ | ⟨a, _ | ⟨b, _ | ⟨c, rest⟩⟩⟩
    · simp [checkRegisters, hnil]
    · simp [checkRegisters, hnil, List.getD]
    · rcases hreg0 a with ha | ha <;> rcases hreg0 b with hb | hb <;>
        simp [checkRegisters, ha, hb, hnil, List.getD,
          mode23_iff_isRegister ls hls] <;>
        exact ⟨a, b, ⟨rfl, rfl⟩, ha, hb⟩
    · simp at hops
  | some l =>
    rcases ops with _ | ⟨a, _ | ⟨b, _ | ⟨c, rest⟩⟩⟩
    · simp [checkRegisters, hmn, hnil, List.getD]
    · rcases hreg0 a with ha | ha <;>
        simp [checkRegisters, hmn, ha, hnil, List.getD]
    · rcases hreg0 a with ha | ha <;> rcases hreg0 b with hb | hb <;>
        simp [checkRegisters, hmn, ha, hb, hnil, List.getD,
          mode23_iff_isRegister ls hls] <;>
        exact ⟨a, b, ⟨rfl, rfl⟩, ha, hb⟩
    · simp at hops

/-- witness for `c8_checkRegisters_iff`: the line `mov r3, r5` with no label
and an empty label table. -/
theorem c8_checkRegisters_iff_witness :
    ((∀ w : Str, isRegister w = 1 → isAlreadyLabel [] w = false) ∧
     isRegister "mov".data = 0 ∧
     (["r3".data, "r5".data] : List Str).length ≤ 2) ∧
    (checkRegisters ((Option.toList (none : Option Str) ++ "mov".data :: ["r3".data, "r5".data]).getD 1 [])
        ((Option.toList (none : Option Str) ++ "mov".data :: ["r3".data, "r5".data]).getD 2 [])
        ((Option.toList (none : Option Str) ++ "mov".data :: ["r3".data, "r5".data]).getD 3 []) = 1 ↔
      ∃ a b, (["r3".data, "r5".data] : List Str) = [a, b] ∧
        getAddressingType [] a ∈ ([2, 3] : List Int) ∧
        getAddressingType [] b ∈ ([2, 3] : List Int)) :=
  ⟨⟨fun _ _ => rfl, by decide, by decide⟩,
   c8_checkRegisters_iff [] none "mov".data ["r3".data, "r5".data]
     (fun _ _ => rfl) (by decide) (by decide)⟩

/-- C4 helper: one `mov X1, X2` line with both labels still undefined adds
one information word (276 = A + mode-1 source bit 8 + mode-1 target bit 4)
and advances IC by 3, provided the size check at the top of the loop
passes. -/
theorem c4_mov_step (rest : List Str) (inst data : List Cell) (ic dc ln : Int)
    (h : ic + dc ≤ 4096) :
    firstStageLoop [] (movFwdLine :: rest) ⟨[], inst, data, ic, dc, 0, ln, false⟩ =
    firstStageLoop [] rest ⟨[], inst ++ [⟨ic, 276⟩], data, ic + 3, dc, 0, ln + 1, false⟩ := by
  have hc : ¬ (4096 < ic + dc) := by omega
  rw [firstStageLoop, if_neg hc]
  rfl

/-- C4 helper: the line `X1: stop` defines the code label X1 at IC + 100 and
adds the one-word `stop` instruction. -/
theorem c4_x1_step (rest : List Str) (inst data : List Cell) (ic dc ln : Int)
    (h : ic + dc ≤ 4096) :
    firstStageLoop [] (x1Line :: rest) ⟨[], inst, data, ic, dc, 0, ln, false⟩ =
    firstStageLoop [] rest ⟨[⟨"X1".data, ic + 100, ".code".data⟩],
      inst ++ [⟨ic, 30724⟩], data, ic + 1, dc, 0, ln + 1, false⟩ := by
  have hc : ¬ (4096 < ic + dc) := by omega
  rw [firstStageLoop, if_neg hc]
  rfl

/-- C4 helper: the line `X2: stop` after X1's definition. -/
theorem c4_x2_step (rest : List Str) (inst data : List Cell) (ic dc ln v : Int)
    (h : ic + dc ≤ 4096) :
    firstStageLoop [] (x2Line :: rest)
      ⟨[⟨"X1".data, v, ".code".data⟩], inst, data, ic, dc, 0, ln, false⟩ =
    firstStageLoop [] rest
      ⟨[⟨"X1".data, v, ".code".data⟩, ⟨"X2".data, ic + 100, ".code".data⟩],
        inst ++ [⟨ic, 30724⟩], data, ic + 1, dc, 0, ln + 1, false⟩ := by
  have hc : ¬ (4096 < ic + dc) := by omega
  rw [firstStageLoop, if_neg hc]
  rfl

/-- C4 helper: running the pass-1 loop through `k` copies of `mov X1, X2`
advances IC by 3 per line while the per-line size check keeps passing (the
bound allows the last processed line to leave IC + DC beyond the limit). -/
theorem c4_loop (k : Nat) : ∀ (tail : List Str) (inst data : List Cell) (ic dc ln : Int),
    ic + dc + 3 * k ≤ 4099 →
    ∃ inst', firstStageLoop [] (List.replicate k movFwdLine ++ tail)
        ⟨[], inst, data, ic, dc, 0, ln, false⟩ =
      firstStageLoop [] tail ⟨[], inst', data, ic + 3 * k, dc, 0, ln + k, false⟩ := by
  induction k with
  | zero => intro tail inst data ic dc ln _; exact ⟨inst, by simp⟩
  | succ k ih =>
    intro tail inst data ic dc ln hle
    have h1 : ic + dc ≤ 4096 := by push_cast at hle; omega
    obtain ⟨inst', ih'⟩ := ih tail (inst ++ [⟨ic, 276⟩]) data (ic + 3) dc (ln + 1)
      (by push_cast at hle ⊢; omega)
    refine ⟨inst', ?_⟩
    rw [List.replicate_succ, List.cons_append, c4_mov_step _ _ _ _ _ _ h1, ih']
    have e1 : ic + 3 + 3 * (k : Int) = ic + 3 * ((k : Nat) + 1 : Nat) := by push_cast; ring
    have e2 : ln + 1 + (k : Int) = ln + ((k : Nat) + 1 : Nat) := by push_cast; ring
    rw [e1, e2]

/-- C4 helper: pass 2 revisits one `mov X1, X2` line and writes the two
operand words: 33562 = ARE-R + 4195 * 8 for X1 and 33570 = ARE-R + 4196 * 8
for X2, at the slots after the information word. -/
theorem c4_emo_mov (inst : List Cell) (ic : Int) :
    encodeMissingOperand c4Labels inst movFwdLine false ic =
    (3, "mov X1  X2\n".data, (inst ++ [⟨ic + 1, 33562⟩]) ++ [⟨ic + 1 + 1, 33570⟩]) := rfl

/-- C4 helper: pass 2 leaves `X1: stop` and `X2: stop` lines unchanged. -/
theorem c4_emo_x1 (inst : List Cell) (ic : Int) :
    encodeMissingOperand c4Labels inst x1Line true ic = (1, x1Line, inst) := rfl

/-- C4 helper: as `c4_emo_x1`, for the X2 line. -/
theorem c4_emo_x2 (inst : List Cell) (ic : Int) :
    encodeMissingOperand c4Labels inst x2Line true ic = (1, x2Line, inst) := rfl

/-- C4 helper: pass 2 on one `mov X1, X2` line fills the two operand words
with the rebased addresses of X1 and X2 (ARE=R) and advances the pass-2 IC
by 3; no condition guards pass 2. -/
theorem c4_p2_mov_step (rest : List Str) (inst data : List Cell) (ic dc ln : Int)
    (e : Nat) (f : Bool) :
    secondStageLoop [] (movFwdLine :: rest) ⟨c4Labels, inst, data, ic, dc, e, ln, f⟩ =
    secondStageLoop [] rest ⟨c4Labels,
      (inst ++ [⟨ic + 1, 33562⟩]) ++ [⟨ic + 1 + 1, 33570⟩], data, ic + 3, dc, e, ln + 1, f⟩ := by
  rw [secondStageLoop]
  exact congrArg (secondStageLoop [] rest) (by simp +decide [processLine2, c4_emo_mov])

/-- C4 helper: pass 2 on `X1: stop` only advances IC. -/
theorem c4_p2_x1_step (rest : List Str) (inst data : List Cell) (ic dc ln : Int)
    (e : Nat) (f : Bool) :
    secondStageLoop [] (x1Line :: rest) ⟨c4Labels, inst, data, ic, dc, e, ln, f⟩ =
    secondStageLoop [] rest ⟨c4Labels, inst, data, ic + 1, dc, e, ln + 1, f⟩ := by
  rw [secondStageLoop]
  exact congrArg (secondStageLoop [] rest) (by simp +decide [processLine2, c4_emo_x1])

/-- C4 helper: pass 2 on `X2: stop` only advances IC. -/
theorem c4_p2_x2_step (rest : List Str) (inst data : List Cell) (ic dc ln : Int)
    (e : Nat) (f : Bool) :
    secondStageLoop [] (x2Line :: rest) ⟨c4Labels, inst, data, ic, dc, e, ln, f⟩ =
    secondStageLoop [] rest ⟨c4Labels, inst, data, ic + 1, dc, e, ln + 1, f⟩ := by
  rw [secondStageLoop]
  exact congrArg (secondStageLoop [] rest) (by simp +decide [processLine2, c4_emo_x2])

/-- C4 helper: pass 2 through `k` copies of `mov X1, X2`. -/
theorem c4_p2_loop (k : Nat) : ∀ (rest : List Str) (inst data : List Cell)
    (ic dc ln : Int) (e : Nat) (f : Bool),
    ∃ inst', secondStageLoop [] (List.replicate k movFwdLine ++ rest)
        ⟨c4Labels, inst, data, ic, dc, e, ln, f⟩ =
      secondStageLoop [] rest ⟨c4Labels, inst', data, ic + 3 * k, dc, e, ln + k, f⟩ := by
  induction k with
  | zero => intro rest inst data ic dc ln e f; exact ⟨inst, by simp⟩
  | succ k ih =>
    intro rest inst data ic dc ln e f
    obtain ⟨inst', ih'⟩ := ih rest ((inst ++ [⟨ic + 1, 33562⟩]) ++ [⟨ic + 1 + 1, 33570⟩])
      data (ic + 3) dc (ln + 1) e f
    refine ⟨inst', ?_⟩
    rw [List.replicate_succ, List.cons_append, c4_p2_mov_step, ih']
    have e1 : ic + 3 + 3 * (k : Int) = ic + 3 * ((k : Nat) + 1 : Nat) := by push_cast; ring
    have e2 : ln + 1 + (k : Int) = ln + ((k : Nat) + 1 : Nat) := by push_cast; ring
    rw [e1, e2]

/-- C4 (code bug). The size check `IC + DC > MEMORY_SIZE` runs only at the
top of the read loop, before the next line is processed, so a file whose
final lines push IC + DC past 4096 is never caught: for `progOverflow`
pass 1 succeeds (return 1, no image-overflow error) with IC + DC = 4097 >
4096, and pass 2 also returns 1, i.e. `createOutput` runs and the output
files are emitted. The claim — that such a file fails with an
image-overflow error before any output — is the code's evident intent (the
check and its error message exist) but does not hold. -/
theorem c4_overflow_emitted :
    ∃ st1 : St, first_stage [] progOverflow = (1, st1) ∧
      st1.ic + st1.dc = 4097 ∧ (4096 : Int) < 4097 ∧
      (second_stage [] progOverflow st1).1 = 1 := by
  obtain ⟨inst1, h1⟩ := c4_loop 1365 [x1Line, x2Line] [] [] 0 0 0 (by norm_num)
  norm_num at h1
  rw [c4_x1_step _ _ _ _ _ _ (by norm_num)] at h1
  norm_num at h1
  rw [c4_x2_step _ _ _ _ _ _ _ (by norm_num)] at h1
  norm_num at h1
  have hnil1 : ∀ st : St, firstStageLoop [] [] st = st := fun _ => rfl
  rw [hnil1] at h1
  refine ⟨⟨c4Labels, inst1 ++ [⟨4095, 30724⟩, ⟨4096, 30724⟩], [], 4097, 0, 0, 1367, false⟩,
    ?_, by norm_num, by norm_num, ?_⟩
  · unfold first_stage
    rw [show progOverflow = List.replicate 1365 movFwdLine ++ [x1Line, x2Line] from rfl,
      show initSt = (⟨[], [], [], 0, 0, 0, 0, false⟩ : St) from rfl, h1]
    simp +decide [updateLabels, c4Labels]
  · obtain ⟨inst3, h2⟩ := c4_p2_loop 1365 [x1Line, x2Line]
      (inst1 ++ [⟨4095, 30724⟩, ⟨4096, 30724⟩]) [] 0 0 0 0 false
    norm_num at h2
    rw [c4_p2_x1_step] at h2
    norm_num at h2
    rw [c4_p2_x2_step] at h2
    have hnil2 : ∀ st : St, secondStageLoop [] [] st = st := fun _ => rfl
    rw [hnil2] at h2
    unfold second_stage
    rw [show progOverflow = List.replicate 1365 movFwdLine ++ [x1Line, x2Line] from rfl]
    rw [show ({ (⟨c4Labels, inst1 ++ [⟨4095, 30724⟩, ⟨4096, 30724⟩], [], 4097, 0, 0, 1367, false⟩ : St) with
      ic := 0, err := 0, lineNum := 0 } : St) =
      (⟨c4Labels, inst1 ++ [⟨4095, 30724⟩, ⟨4096, 30724⟩], [], 0, 0, 0, 0, false⟩ : St) from rfl]
    rw [h2]
    rfl

end Asm
